import Mathlib

/-!
Verification of the tool-calling emulation layer of the `uniai` repository
(`tool_emulation.go`, package `uniai`), against its natural-language
specification.  The Go code is shallowly embedded: Go strings become Lean
`String`/`List Char`, the `encoding/json` subset the code relies on
(`json.Valid`, `json.Unmarshal` into a two-field `RawMessage` struct,
`json.Marshal` of tool specs) is modelled by an executable JSON parser and
serializer, and the injected provider call becomes a function argument
`Request → Except String Result`.  The orchestrator additionally returns the
ordered list of requests it sent, so call-count and call-shape properties are
statable.
-/

namespace Uniai

/-! ### Go `strings` helpers

Byte indices coincide with character indices on the ASCII inputs the claims
use, so strings are modelled as `List Char`.  `goIsSpace` covers the ASCII
part of Go `unicode.IsSpace` (the non-ASCII spaces never occur in the
material below). -/

def goIsSpace (c : Char) : Bool :=
  c == ' ' || c == '\t' || c == '\n' || c == '\x0b' || c == '\x0c' || c == '\r'

def dropLeadWs (l : List Char) : List Char := l.dropWhile goIsSpace

def trimWsChars (l : List Char) : List Char :=
  ((l.dropWhile goIsSpace).reverse.dropWhile goIsSpace).reverse

def goTrimSpace (s : String) : String := String.mk (trimWsChars s.data)

def goStartsWith (l pre : List Char) : Bool := pre.isPrefixOf l

def goStripLead (l pre : List Char) : List Char :=
  if pre.isPrefixOf l then l.drop pre.length else l

def listIndexOfAux (sub : List Char) : List Char → Nat → Option Nat
  | l, i =>
    if sub.isPrefixOf l then some i
    else match l with
      | [] => none
      | _ :: r => listIndexOfAux sub r (i + 1)

def listIndexOf (l sub : List Char) : Option Nat := listIndexOfAux sub l 0

def lastIndexOfCharAux (c : Char) : List Char → Nat → Option Nat → Option Nat
  | [], _, best => best
  | x :: r, i, best =>
    lastIndexOfCharAux c r (i + 1) (if x == c then some i else best)

def lastIndexOfChar (l : List Char) (c : Char) : Option Nat :=
  lastIndexOfCharAux c l 0 none

def goSplitN (l sep : List Char) : Nat → List (List Char)
  | 0 => []
  | 1 => [l]
  | Nat.succ (Nat.succ n) =>
    match listIndexOf l sep with
    | none => [l]
    | some i => l.take i :: goSplitN (l.drop (i + sep.length)) sep (Nat.succ n)

/-! ### JSON model

The `encoding/json` subset used by `tool_emulation.go`.  Numbers keep their
source lexeme: the Go code never inspects a numeric value, it only checks
validity and re-emits raw message bytes, so the lexeme is the faithful
observable. -/

inductive Json where
  | null
  | boolean (b : Bool)
  | number (lexeme : List Char)
  | str (s : String)
  | arr (elems : List Json)
  | obj (mems : List (String × Json))

def isJsonDigit (c : Char) : Bool := 48 ≤ c.toNat && c.toNat ≤ 57

/-- Numeric value of a hexadecimal digit, by character code: `0`-`9` are
codes 48-57, `a`-`f` codes 97-102, `A`-`F` codes 65-70. -/
def hexDigitVal (c : Char) : Option Nat :=
  let n := c.toNat
  if 48 ≤ n && n ≤ 57 then some (n - 48)
  else if 97 ≤ n && n ≤ 102 then some (n - 87)
  else if 65 ≤ n && n ≤ 70 then some (n - 55)
  else none

def jsonEscChar : Char → Option Char
  | '"' => some '"'
  | '\\' => some '\\'
  | '/' => some '/'
  | 'b' => some (Char.ofNat 8)
  | 'f' => some (Char.ofNat 12)
  | 'n' => some '\n'
  | 'r' => some '\r'
  | 't' => some '\t'
  | _ => none

/-- Parse the body of a JSON string after the opening quote, returning the
decoded string and the input following the closing quote.  `\uXXXX` escapes
decode through `Char.ofNat` (lone surrogates degrade to NUL, a corner Go
handles with replacement runes; no claim input contains them). -/
def jsonStrBody (acc : List Char) : List Char → Option (String × List Char)
  | '"' :: rest => some (String.mk acc.reverse, rest)
  | '\\' :: 'u' :: a :: b :: c :: d :: rest =>
    match hexDigitVal a, hexDigitVal b, hexDigitVal c, hexDigitVal d with
    | some va, some vb, some vc, some vd =>
      jsonStrBody (Char.ofNat (((va * 16 + vb) * 16 + vc) * 16 + vd) :: acc) rest
    | _, _, _, _ => none
  | '\\' :: e :: rest =>
    match jsonEscChar e with
    | some ch => jsonStrBody (ch :: acc) rest
    | none => none
  | c :: rest => if c.toNat < 32 then none else jsonStrBody (c :: acc) rest
  | [] => none

def spanDigits (l : List Char) : List Char × List Char :=
  (l.takeWhile isJsonDigit, l.dropWhile isJsonDigit)

/-- Consume the optional fraction and exponent of a JSON number; returns the
rest of the input. -/
def jsonNumFrac (l : List Char) : Option (List Char) :=
  let afterFrac := match l with
    | '.' :: r =>
      let (ds, r') := spanDigits r
      if ds.isEmpty then none else some r'
    | _ => some l
  match afterFrac with
  | none => none
  | some l2 =>
    match l2 with
    | 'e' :: r | 'E' :: r =>
      let r1 := match r with
        | '+' :: r' => r'
        | '-' :: r' => r'
        | _ => r
      let (ds, r2) := spanDigits r1
      if ds.isEmpty then none else some r2
    | _ => some l2

/-- Consume one JSON number (RFC 8259 grammar: no leading zeros, optional
fraction and exponent); returns the rest of the input. -/
def jsonNumRest (l : List Char) : Option (List Char) :=
  let l1 := match l with
    | '-' :: r => r
    | _ => l
  match l1 with
  | '0' :: r => jsonNumFrac r
  | c :: _ =>
    if isJsonDigit c then jsonNumFrac (spanDigits l1).2 else none
  | [] => none

mutual

/-- Parse one JSON value starting at the head of the input (the caller has
skipped leading whitespace); returns the value and the input immediately
after it, so the consumed slice is exactly the raw bytes of the value. -/
def jsonV : Nat → List Char → Option (Json × List Char)
  | 0, _ => none
  | _ + 1, 'n' :: 'u' :: 'l' :: 'l' :: r => some (.null, r)
  | _ + 1, 't' :: 'r' :: 'u' :: 'e' :: r => some (.boolean true, r)
  | _ + 1, 'f' :: 'a' :: 'l' :: 's' :: 'e' :: r => some (.boolean false, r)
  | _ + 1, '"' :: r =>
    match jsonStrBody [] r with
    | some (s, r') => some (.str s, r')
    | none => none
  | fuel + 1, '[' :: r =>
    match dropLeadWs r with
    | ']' :: r' => some (.arr [], r')
    | t => match jsonSeq fuel t with
      | some (es, r') => some (.arr es, r')
      | none => none
  | fuel + 1, '{' :: r =>
    match dropLeadWs r with
    | '}' :: r' => some (.obj [], r')
    | t => match jsonMems fuel t with
      | some (ms, r') => some (.obj ms, r')
      | none => none
  | _ + 1, l =>
    match jsonNumRest l with
    | some rest => some (.number (l.take (l.length - rest.length)), rest)
    | none => none

/-- One or more comma-separated array elements, ending at `]`. -/
def jsonSeq : Nat → List Char → Option (List Json × List Char)
  | 0, _ => none
  | fuel + 1, l =>
    match jsonV fuel l with
    | none => none
    | some (v, r) =>
      match dropLeadWs r with
      | ',' :: r' =>
        match jsonSeq fuel (dropLeadWs r') with
        | some (vs, r'') => some (v :: vs, r'')
        | none => none
      | ']' :: r' => some ([v], r')
      | _ => none

/-- One or more comma-separated object members, ending at the closing brace. -/
def jsonMems : Nat → List Char → Option (List (String × Json) × List Char)
  | 0, _ => none
  | fuel + 1, l =>
    match l with
    | '"' :: r =>
      match jsonStrBody [] r with
      | none => none
      | some (key, r1) =>
        match dropLeadWs r1 with
        | ':' :: r2 =>
          match jsonV fuel (dropLeadWs r2) with
          | none => none
          | some (v, r3) =>
            match dropLeadWs r3 with
            | ',' :: r4 =>
              match jsonMems fuel (dropLeadWs r4) with
              | some (ms, r5) => some ((key, v) :: ms, r5)
              | none => none
            | '}' :: r4 => some ([(key, v)], r4)
            | _ => none
        | _ => none
    | _ => none

end

/-- Go `json.Valid`: the input is one complete JSON value surrounded only by
whitespace. -/
def jsonValid (l : List Char) : Bool :=
  let t := dropLeadWs l
  match jsonV (t.length + 1) t with
  | some (_, rest) => (dropLeadWs rest).isEmpty
  | none => false

/-- Go `json.Unmarshal(raw, &s)` for a `string` target: succeeds exactly when
the payload is a single JSON string. -/
def jsonDecodeString (l : List Char) : Option String :=
  let t := dropLeadWs l
  match jsonV (t.length + 1) t with
  | some (.str s, rest) => if (dropLeadWs rest).isEmpty then some s else none
  | _ => none

/-- One or more object members of a top-level object, each value captured as
its raw byte slice (Go `json.RawMessage`: the exact bytes of the value, no
surrounding whitespace).  Fuel bounds the member count; nested values get
fresh fuel from their own length. -/
def objMemsRaw : Nat → List Char → Option (List (String × List Char) × List Char)
  | 0, _ => none
  | fuel + 1, l =>
    match dropLeadWs l with
    | '"' :: r =>
      match jsonStrBody [] r with
      | none => none
      | some (key, r1) =>
        match dropLeadWs r1 with
        | ':' :: r2 =>
          let cur := dropLeadWs r2
          match jsonV (cur.length + 1) cur with
          | none => none
          | some (_, rest) =>
            let raw := cur.take (cur.length - rest.length)
            match dropLeadWs rest with
            | ',' :: r3 =>
              match objMemsRaw fuel r3 with
              | some (ms, r4) => some ((key, raw) :: ms, r4)
              | none => none
            | '}' :: r3 => some ([(key, raw)], r3)
            | _ => none
        | _ => none
    | _ => none

/-- Go `json.Unmarshal` of a (pre-validated) payload into a struct of
`json.RawMessage` fields: succeeds only on a top-level object, yielding the
member list with raw values.  Later duplicate keys overwrite earlier ones at
lookup time, as in Go. -/
def topObjFieldsRaw (l : List Char) : Option (List (String × List Char)) :=
  match dropLeadWs l with
  | '{' :: r =>
    match dropLeadWs r with
    | '}' :: _ => some []
    | _ => (objMemsRaw (l.length + 1) r).map (·.1)
  | _ => none

/-- The value the Go decoder leaves in a struct field tagged with `key`: the
last member with that name, or `none` when absent.  (Go also matches field
names case-insensitively as a fallback; the decision keys are all lower-case
literals, so exact matching is the behavior exercised.) -/
def lookupLastField (fields : List (String × List Char)) (key : String) :
    Option (List Char) :=
  fields.foldl (fun acc kv => if kv.1 = key then some kv.2 else acc) none

/-! ### Go `json.Marshal` of decoded values

`buildToolDecisionPrompt` round-trips the parameter schema of each tool through
`json.Unmarshal` into `any` and back through `json.Marshal`.  Decoding into
`any` turns objects into maps (later duplicate keys win) and `Marshal` emits
map keys sorted; `canonGo` performs that canonicalization on the parsed
value.  String escaping follows the `Marshal` default (HTML-escaping `<`, `>`,
`&`); number lexemes are re-emitted verbatim (Go reformats via `float64`,
which agrees on the material here and is never observed by a claim). -/

def replaceOrAppendKey (acc : List (String × Json)) (kv : String × Json) :
    List (String × Json) :=
  if acc.any (fun p => p.1 = kv.1) then
    acc.map (fun p => if p.1 = kv.1 then kv else p)
  else acc ++ [kv]

def dedupKeysLastWins (ms : List (String × Json)) : List (String × Json) :=
  ms.foldl replaceOrAppendKey []

def insertByKey (kv : String × Json) : List (String × Json) → List (String × Json)
  | [] => [kv]
  | p :: ps => if kv.1 < p.1 then kv :: p :: ps else p :: insertByKey kv ps

def sortByKey (ms : List (String × Json)) : List (String × Json) :=
  ms.foldr insertByKey []

mutual

/-- Canonicalize a parsed JSON value the way a Go
`Unmarshal`-into-`any` / `Marshal` round trip does. -/
def canonGo : Json → Json
  | .obj ms => .obj (sortByKey (dedupKeysLastWins (canonMems ms)))
  | .arr es => .arr (canonSeq es)
  | v => v

def canonSeq : List Json → List Json
  | [] => []
  | e :: es => canonGo e :: canonSeq es

def canonMems : List (String × Json) → List (String × Json)
  | [] => []
  | (k, v) :: ms => (k, canonGo v) :: canonMems ms

end

def hexDigitChar (n : Nat) : Char :=
  if n < 10 then Char.ofNat ('0'.toNat + n) else Char.ofNat ('a'.toNat + n - 10)

def goMarshalStringChar (c : Char) : List Char :=
  if c = '"' then ['\\', '"']
  else if c = '\\' then ['\\', '\\']
  else if c = '\n' then ['\\', 'n']
  else if c = '\r' then ['\\', 'r']
  else if c = '\t' then ['\\', 't']
  else if c = '<' || c = '>' || c = '&' || c.toNat < 32 then
    ['\\', 'u', '0', '0', hexDigitChar (c.toNat / 16), hexDigitChar (c.toNat % 16)]
  else [c]

def goMarshalString (s : String) : String :=
  String.mk ('"' :: (s.data.flatMap goMarshalStringChar) ++ ['"'])

mutual

def goMarshal : Json → String
  | .null => "null"
  | .boolean true => "true"
  | .boolean false => "false"
  | .number lx => String.mk lx
  | .str s => goMarshalString s
  | .arr es => "[" ++ goMarshalSeq es ++ "]"
  | .obj ms => "\x7b" ++ goMarshalMems ms ++ "\x7d"

def goMarshalSeq : List Json → String
  | [] => ""
  | [e] => goMarshal e
  | e :: es => goMarshal e ++ "," ++ goMarshalSeq es

def goMarshalMems : List (String × Json) → String
  | [] => ""
  | [(k, v)] => goMarshalString k ++ ":" ++ goMarshal v
  | (k, v) :: ms => goMarshalString k ++ ":" ++ goMarshal v ++ "," ++ goMarshalMems ms

end

/-- Go `%q` on the identifier-like strings the emulation formats (tool and
function names): quote, escaping backslash, quote and the common control
characters. -/
def goQuoteChar (c : Char) : List Char :=
  if c = '"' then ['\\', '"']
  else if c = '\\' then ['\\', '\\']
  else if c = '\n' then ['\\', 'n']
  else if c = '\r' then ['\\', 'r']
  else if c = '\t' then ['\\', 't']
  else [c]

def goQuote (s : String) : String :=
  String.mk ('"' :: (s.data.flatMap goQuoteChar) ++ ['"'])

/-! ### The `chat` package data model

The struct definitions live in the `chat` package of the repository (not among
the provided files); the fields below are the ones `tool_emulation.go`
reads or writes, with shapes as the data-model section of the spec describes
them.  `Result.raw` is an opaque handle standing for the untyped vendor
payload pointer. -/

structure ToolCallFunction where
  name : String := ""
  arguments : String := ""
deriving Repr, DecidableEq

structure ToolCall where
  id : String := ""
  type : String := ""
  function : ToolCallFunction := {}
deriving Repr, DecidableEq

structure Message where
  role : String := ""
  content : String := ""
  name : String := ""
  toolCalls : List ToolCall := []
  toolCallID : String := ""
deriving Repr, DecidableEq

structure ToolFunction where
  name : String := ""
  description : String := ""
  parametersJSONSchema : String := ""
  strict : Option Bool := none
deriving Repr, DecidableEq

structure Tool where
  type : String := ""
  function : ToolFunction := {}
deriving Repr, DecidableEq

structure ToolChoice where
  mode : String := ""
  functionName : String := ""
deriving Repr, DecidableEq

/-- Model of `structs.JSONMap`: a provider-specific option overlay; values opaque. -/
abbrev JSONMap : Type := List (String × String)

/-- The `Options` fields `chatWithToolEmulation` and its helpers touch:
the emulation toggle and the five vendor maps `cloneChatRequest` copies.
The remaining scalar knobs (temperature, max tokens, ...) are copied
verbatim by the Go struct assignment and never read by the emulation layer. -/
structure Options where
  toolsEmulation : Bool := false
  openAI : JSONMap := []
  azure : JSONMap := []
  anthropic : JSONMap := []
  bedrock : JSONMap := []
  susanoo : JSONMap := []
deriving Repr, DecidableEq

structure Request where
  model : String := ""
  messages : List Message := []
  tools : List Tool := []
  toolChoice : Option ToolChoice := none
  options : Options := {}
deriving Repr, DecidableEq

structure Usage where
  inputTokens : Nat := 0
  outputTokens : Nat := 0
  totalTokens : Nat := 0
deriving Repr, DecidableEq

structure Result where
  text : String := ""
  model : String := ""
  toolCalls : List ToolCall := []
  messages : List Message := []
  usage : Usage := {}
  warnings : List String := []
  raw : Nat := 0
deriving Repr, DecidableEq

def RoleSystem : String := "system"

def RoleUser : String := "user"

def RoleAssistant : String := "assistant"

def RoleTool : String := "tool"

/-! ### `tool_emulation.go` -/

/-- Function `extractJSONPayload`: trim whitespace, unwrap one leading code fence,
accept the text if it is valid JSON, otherwise try the first-`\x7b` /
last-`\x7d` slice. -/
def extractJSONPayload (text : String) : Except String (List Char) :=
  let trimmed0 := trimWsChars text.data
  if trimmed0.isEmpty then .error "empty tool decision"
  else
    let trimmed :=
      if goStartsWith trimmed0 ("```".data) then
        match goSplitN trimmed0 ("```".data) 3 with
        | _ :: p1 :: _ =>
          trimWsChars (goStripLead (trimWsChars p1) ("json".data))
        | _ => trimmed0
      else trimmed0
    if jsonValid trimmed then .ok trimmed
    else
      match listIndexOf trimmed ['\x7b'], lastIndexOfChar trimmed '\x7d' with
      | some start, some stop =>
        if start < stop then
          let candidate := (trimmed.drop start).take (stop + 1 - start)
          if jsonValid candidate then .ok candidate
          else .error ("invalid tool decision JSON: " ++ goQuote (String.mk trimmed))
        else .error ("invalid tool decision JSON: " ++ goQuote (String.mk trimmed))
      | _, _ => .error ("invalid tool decision JSON: " ++ goQuote (String.mk trimmed))

/-- Function `parseToolDecision`: extract a JSON payload, decode it into the
two-field decision struct (`tool`, `arguments` as raw messages) and
interpret it; returns the decided tool name (`""` for "no tool") and the
raw arguments (`""` for a nil raw message). -/
def parseToolDecision (text : String) : Except String (String × String) :=
  match extractJSONPayload text with
  | .error e => .error e
  | .ok payload =>
    match topObjFieldsRaw payload with
    | none => .error "json: cannot unmarshal tool decision"
    | some fields =>
      let toolField := lookupLastField fields "tool"
      let argsField := lookupLastField fields "arguments"
      let argsStr := String.mk (argsField.getD [])
      match toolField with
      | none => .ok ("", argsStr)
      | some toolRaw =>
        let toolTrim := trimWsChars toolRaw
        if toolTrim = ("null".data) || toolTrim = ['"', '"'] then .ok ("", argsStr)
        else
          match jsonDecodeString toolRaw with
          | none => .error "tool must be string or null"
          | some nm =>
            let nm := goTrimSpace nm
            if nm = "" then .ok ("", argsStr)
            else
              let args := argsField.getD ['\x7b', '\x7d']
              if jsonValid args then .ok (nm, String.mk args)
              else .error "tool arguments must be valid JSON"

/-- Function `toolExists`: the name is among the function-typed tools. -/
def toolExists (tools : List Tool) (name : String) : Bool :=
  tools.any (fun tool => tool.type = "function" && tool.function.name = name)

/-- Function `cloneJSONMap`: empty input normalizes to nil, otherwise a copy with
the same key/value pairs. -/
def cloneJSONMap (input : JSONMap) : JSONMap :=
  if input.length = 0 then [] else input

/-- Function `cloneChatRequest` at the level of contents: the struct copy plus fresh
backing arrays for `Messages`/`Tools`, a copied `ToolChoice` cell and cloned
option maps.  (Sharing and mutation are modelled separately for the frame
claim, in the store-based `cloneChatRequestR` below.) -/
def cloneChatRequest (req : Request) : Request :=
  { req with
    messages := req.messages
    tools := req.tools
    toolChoice := req.toolChoice
    options := { req.options with
      openAI := cloneJSONMap req.options.openAI
      azure := cloneJSONMap req.options.azure
      anthropic := cloneJSONMap req.options.anthropic
      bedrock := cloneJSONMap req.options.bedrock
      susanoo := cloneJSONMap req.options.susanoo } }

/-- The `toolSpec` struct marshalled into the decision prompt: fields in
declaration order, `description` and `parameters` carrying `omitempty`
(for the `any`-typed `parameters`, empty means a nil interface, i.e. the
schema decoded to JSON null or failed to decode). -/
def marshalToolSpec (name description : String) (params : Option Json) : String :=
  "\x7b\"name\":" ++ goMarshalString name
    ++ (if description = "" then "" else ",\"description\":" ++ goMarshalString description)
    ++ (match params with
        | some p => ",\"parameters\":" ++ goMarshal p
        | none => "")
    ++ "\x7d"

/-- The decoded parameter schema of one tool, as `buildToolDecisionPrompt`
computes it: decode only when the raw schema is non-empty, keep the value
only when decoding succeeds, and a JSON-null decodes to a nil interface
(omitted by `omitempty`). -/
def toolSpecParams (tool : Tool) : Option Json :=
  if tool.function.parametersJSONSchema = "" then none
  else
    let l := tool.function.parametersJSONSchema.data
    let t := dropLeadWs l
    match jsonV (t.length + 1) t with
    | some (v, rest) =>
      if (dropLeadWs rest).isEmpty then
        match canonGo v with
        | .null => none
        | v' => some v'
      else none
    | none => none

/-- Function `buildToolDecisionPrompt`: serialize the function-typed tools (failing
when none remain) and assemble the fixed instruction block plus the
tool-choice directive line. -/
def buildToolDecisionPrompt (req : Request) : Except String String :=
  let tools := req.tools.filter (fun tool => tool.type = "function")
  if tools.isEmpty then .error "no function tools available for emulation"
  else
    let data := "[" ++ String.intercalate ","
      (tools.map (fun tool =>
        marshalToolSpec tool.function.name tool.function.description
          (toolSpecParams tool))) ++ "]"
    let lines :=
      ["You are a tool-calling engine.",
       "When you need a tool, output ONLY JSON:",
       "\x7b\"tool\": \"get_weather\", \"arguments\": \x7b\"city\": \"Tokyo\"\x7d\x7d",
       "If no tool needed, output:",
       "\x7b\"tool\": null, \"arguments\": \x7b\x7d\x7d",
       "Available tools (JSON): " ++ data]
    let lines := lines ++
      (match req.toolChoice with
       | some choice =>
         if choice.mode = "none" then
           ["You MUST NOT call any tool. Return tool=null."]
         else if choice.mode = "required" then
           ["You MUST call a tool. tool must not be null."]
         else if choice.mode = "function" then
           if choice.functionName ≠ "" then
             ["You MUST call the tool named " ++ goQuote choice.functionName ++ "."]
           else []
         else []
       | none => [])
    .ok (String.intercalate "\n" lines)

/-- Function `buildToolDecisionRequest`: clone, clear `Tools`/`ToolChoice`, switch the
emulation toggle off, and prepend the decision prompt as a system message
(the original messages, system ones included, stay in place). -/
def buildToolDecisionRequest (req : Request) : Except String Request :=
  match buildToolDecisionPrompt req with
  | .error e => .error e
  | .ok prompt =>
    let out := cloneChatRequest req
    .ok { out with
      tools := []
      toolChoice := none
      options := { out.options with toolsEmulation := false }
      messages := { role := RoleSystem, content := prompt } :: out.messages }

/-- Function `buildFinalRequest`: clone with `Tools`/`ToolChoice` cleared and the
emulation toggle off; messages untouched. -/
def buildFinalRequest (req : Request) : Request :=
  let out := cloneChatRequest req
  { out with
    tools := []
    toolChoice := none
    options := { out.options with toolsEmulation := false } }

/-- The tool-choice modes under which a null decision is an error in
`chatWithToolEmulation`. -/
def choiceForcesTool (choice : Option ToolChoice) : Bool :=
  match choice with
  | some c => c.mode = "required" || c.mode = "function"
  | none => false

/-- The `ToolCall` synthesized for an emulated decision: identifier
`emulated_` + `time.Now().UnixNano()` (the `now` argument). -/
def mkEmulatedCall (now : Nat) (toolName args : String) : ToolCall :=
  { id := "emulated_" ++ Nat.repr now
    type := "function"
    function := { name := toolName, arguments := args } }

/-- Function `chatWithToolEmulation`, with `call` the injected single-shot provider
call (`c.chatOnce`), `now` the nanosecond clock reading, and the second
component the ordered list of requests actually sent to the provider. -/
def chatWithToolEmulation (call : Request → Except String Result) (now : Nat)
    (req : Request) : Except String Result × List Request :=
  if req.tools = [] then (call req, [req])
  else
    match buildToolDecisionRequest req with
    | .error e => (.error e, [])
    | .ok decisionReq =>
      match call decisionReq with
      | .error e => (.error e, [decisionReq])
      | .ok decisionResp =>
        match parseToolDecision decisionResp.text with
        | .error e => (.error e, [decisionReq])
        | .ok (toolName, args) =>
          if toolName = "" then
            if choiceForcesTool req.toolChoice then
              (.error "tool emulation expected a tool call but got null", [decisionReq])
            else
              match call (buildFinalRequest req) with
              | .ok resp =>
                (.ok { resp with warnings := resp.warnings ++ ["tool calls emulated"] },
                 [decisionReq, buildFinalRequest req])
              | .error e => (.error e, [decisionReq, buildFinalRequest req])
          else if toolExists req.tools toolName then
            let c := mkEmulatedCall now toolName args
            (.ok { model := decisionResp.model
                   toolCalls := [c]
                   messages := [{ role := RoleAssistant, toolCalls := [c] }]
                   usage := decisionResp.usage
                   raw := decisionResp.raw
                   warnings := ["tool calls emulated"] },
             [decisionReq])
          else
            (.error ("tool " ++ goQuote toolName ++ " not found in request"),
             [decisionReq])

/-! ### Slice aliasing model for `cloneChatRequest`

Go slices and the `ToolChoice` pointer are references into backing storage;
`cloneChatRequest` copies the struct and then replaces `Messages` and
`Tools` with `append`s onto fresh empty slices and `ToolChoice` with a
pointer to a copied value — i.e. it allocates fresh cells holding copies.
A `Store` maps cell identifiers to contents; mutating a slice in place is a
write to its cell. -/

structure Store where
  msgArr : Nat → List Message
  toolArr : Nat → List Tool
  choiceCell : Nat → Option ToolChoice
  next : Nat

/-- A request whose mutable collections are references into a `Store`. -/
structure RequestR where
  model : String := ""
  messagesRef : Nat := 0
  toolsRef : Nat := 0
  choiceRef : Option Nat := none
  options : Options := {}

def writeMsgArr (st : Store) (ref : Nat) (v : List Message) : Store :=
  { st with msgArr := fun i => if i = ref then v else st.msgArr i }

def writeToolArr (st : Store) (ref : Nat) (v : List Tool) : Store :=
  { st with toolArr := fun i => if i = ref then v else st.toolArr i }

def writeChoiceCell (st : Store) (ref : Nat) (v : Option ToolChoice) : Store :=
  { st with choiceCell := fun i => if i = ref then v else st.choiceCell i }

/-- Function `cloneChatRequest` over the store: the struct copy keeps the scalar
fields, while `Messages`, `Tools` and a present `ToolChoice` get fresh cells
holding copies of the contents of the originals. -/
def cloneChatRequestR (st : Store) (req : RequestR) : Store × RequestR :=
  let mRef := st.next
  let tRef := st.next + 1
  let st1 : Store :=
    { st with
      next := st.next + 2
      msgArr := fun i => if i = mRef then st.msgArr req.messagesRef else st.msgArr i
      toolArr := fun i => if i = tRef then st.toolArr req.toolsRef else st.toolArr i }
  match req.choiceRef with
  | none => (st1, { req with messagesRef := mRef, toolsRef := tRef, choiceRef := none })
  | some c =>
    let cRef := st1.next
    ({ st1 with
        next := st1.next + 1
        choiceCell := fun i => if i = cRef then st1.choiceCell c else st1.choiceCell i },
     { req with messagesRef := mRef, toolsRef := tRef, choiceRef := some cRef })

/-! ### Concrete material for the claims -/

def toolWeatherEx : Tool :=
  { type := "function", function := { name := "get_weather" } }

def toolOtherEx : Tool :=
  { type := "function", function := { name := "other_tool" } }

def userMsgEx : Message := { role := RoleUser, content := "hi" }

def sysMsgEx : Message := { role := RoleSystem, content := "original instructions" }

/-- A request with one function tool and no tool choice. -/
def reqWeatherAutoEx : Request :=
  { model := "m", messages := [userMsgEx], tools := [toolWeatherEx] }

/-- The decision request the orchestrator derives from `reqWeatherAutoEx`. -/
def dReqWeatherAutoEx : Request :=
  (buildToolDecisionRequest reqWeatherAutoEx).toOption.getD {}

/-- A provider result that already carries a (native) tool call and no text. -/
def resNativeToolEx : Result :=
  { model := "m",
    toolCalls := [{ id := "native_1", type := "function",
                    function := { name := "get_weather", arguments := "\x7b\x7d" } }] }

/-- A provider that answers every request with `resNativeToolEx`. -/
def callNativeToolEx : Request → Except String Result := fun _ => .ok resNativeToolEx

/-- A decision response naming `get_weather` with arguments for Tokyo. -/
def decisionWeatherText : String :=
  "\x7b\"tool\":\"get_weather\",\"arguments\":\x7b\"city\":\"Tokyo\"\x7d\x7d"

def resDecisionWeatherEx : Result :=
  { text := decisionWeatherText, model := "dm",
    usage := { inputTokens := 3, outputTokens := 4, totalTokens := 7 }, raw := 3 }

def callDecisionWeatherEx : Request → Except String Result :=
  fun _ => .ok resDecisionWeatherEx

/-- A request with a system message already present. -/
def reqSystemEx : Request :=
  { model := "m", messages := [sysMsgEx, userMsgEx], tools := [toolWeatherEx] }

/-- A request with tool choice mode `none`. -/
def reqNoneChoiceEx : Request :=
  { model := "m", messages := [userMsgEx], tools := [toolWeatherEx],
    toolChoice := some { mode := "none" } }

/-- A request with tool choice mode `function` targeting `get_weather`,
carrying a second tool the decision can name instead. -/
def reqFunctionChoiceEx : Request :=
  { model := "m", messages := [userMsgEx], tools := [toolWeatherEx, toolOtherEx],
    toolChoice := some { mode := "function", functionName := "get_weather" } }

/-- A decision response naming `other_tool`. -/
def decisionOtherText : String :=
  "\x7b\"tool\":\"other_tool\",\"arguments\":\x7b\x7d\x7d"

def callDecisionOtherEx : Request → Except String Result :=
  fun _ => .ok { text := decisionOtherText, model := "dm", raw := 4 }

/-- A store holding one message array, one tool array and one tool-choice
cell, with a request pointing at them. -/
def storeEx : Store :=
  { msgArr := fun i => if i = 0 then [userMsgEx] else []
    toolArr := fun i => if i = 1 then [toolWeatherEx] else []
    choiceCell := fun i => if i = 2 then some { mode := "auto" } else none
    next := 3 }

def reqRefEx : RequestR :=
  { model := "m", messagesRef := 0, toolsRef := 1, choiceRef := some 2 }

instance {α β : Type} [DecidableEq α] [DecidableEq β] : DecidableEq (Except α β) :=
  fun x y =>
    match x, y with
    | .error a, .error b =>
      if h : a = b then isTrue (by rw [h]) else isFalse (by intro hx; cases hx; exact h rfl)
    | .ok a, .ok b =>
      if h : a = b then isTrue (by rw [h]) else isFalse (by intro hx; cases hx; exact h rfl)
    | .error _, .ok _ => isFalse (by intro hx; cases hx)
    | .ok _, .error _ => isFalse (by intro hx; cases hx)

/-! ### Theorems for the claims -/

/-- Claim C8: the decision parser recovers the object `\x7b"tool":"x","arguments":\x7b"a":1\x7d\x7d`
(tool name `x`, arguments `\x7b"a":1\x7d`, no error) both from the fenced input
prefixed with prose and from the JSON embedded mid-prose, via
first-brace/last-brace scanning. -/
theorem parseToolDecision_recovers_fenced_and_prose :
    parseToolDecision "Sure! ```json\n\x7b\"tool\":\"x\",\"arguments\":\x7b\"a\":1\x7d\x7d\n```"
      = .ok ("x", "\x7b\"a\":1\x7d") ∧
    parseToolDecision "I\x27ll call \x7b\"tool\":\"x\",\"arguments\":\x7b\"a\":1\x7d\x7d now"
      = .ok ("x", "\x7b\"a\":1\x7d") := by
  decide

/-- Claim C5: the decision struct `parseToolDecision` decodes has only `tool` and
`arguments` fields, so the documented forward-compatible array form
`\x7b"tools":[...]\x7d` is silently ignored: a decision naming `x` through the
array form parses as a null-tool decision instead of consulting the first
element. -/
theorem tools_array_form_ignored :
    parseToolDecision "\x7b\"tools\":[\x7b\"tool\":\"x\",\"arguments\":\x7b\"a\":1\x7d\x7d]\x7d"
      = .ok ("", "") ∧
    parseToolDecision "\x7b\"tools\":[]\x7d" = .ok ("", "") := by
  decide

/-- Claim C2: `buildToolDecisionRequest` prepends the decision prompt but does not
remove existing system messages — on a request that already carries one, the
decision request holds two system-role messages, not one. -/
theorem buildToolDecisionRequest_keeps_existing_system_messages :
    (buildToolDecisionRequest reqSystemEx).toOption.map
        (fun r => r.messages.map (fun m => m.role))
      = some [RoleSystem, RoleSystem, RoleUser] := by
  decide

/-- Claim C3: with tool choice mode `none` and a decision naming `get_weather`,
`chatWithToolEmulation` does not fail: it synthesizes the emulated tool call
and returns it with the emulation warning. -/
theorem toolChoice_none_not_enforced :
    (chatWithToolEmulation callDecisionWeatherEx 7 reqNoneChoiceEx).1.toOption.map
        (fun r => (r.toolCalls.map (fun c => (c.function.name, c.function.arguments)),
                   r.warnings))
      = some ([("get_weather", "\x7b\"city\":\"Tokyo\"\x7d")], ["tool calls emulated"]) := by
  decide

/-- Claim C4: with tool choice mode `function` targeting `get_weather` and a
decision naming `other_tool` (present in the tool set), `chatWithToolEmulation`
does not fail: it synthesizes a call to `other_tool`. -/
theorem toolChoice_function_name_not_enforced :
    (chatWithToolEmulation callDecisionOtherEx 8 reqFunctionChoiceEx).1.toOption.map
        (fun r => r.toolCalls.map (fun c => c.function.name))
      = some ["other_tool"] := by
  decide

/-- Claim C7: the synthesized identifier is `emulated_` followed by the nanosecond
timestamp only — it contains a single underscore, while the
`emulated_<timestamp>_<index>` format requires two. -/
theorem emulated_id_has_no_index_component :
    (chatWithToolEmulation callDecisionWeatherEx 1700000000000000000 reqWeatherAutoEx).1.toOption.map
        (fun r => r.toolCalls.map (fun c => c.id))
      = some ["emulated_1700000000000000000"] ∧
    (("emulated_1700000000000000000".data).filter (fun c => c == '_')).length = 1 := by
  decide

/-- Claim C1 (counterexample): a provider that answers every request with a
tool-call-carrying result, and a request with one tool.  `chatWithToolEmulation`
neither sends the request unchanged first (the head of its call log is not
the original request) nor returns the tool-call result of the provider verbatim. -/
theorem probe_claim_fails_on_chatWithToolEmulation :
    reqWeatherAutoEx.tools ≠ [] ∧
    callNativeToolEx reqWeatherAutoEx = .ok resNativeToolEx ∧
    resNativeToolEx.toolCalls ≠ [] ∧
    (chatWithToolEmulation callNativeToolEx 5 reqWeatherAutoEx).2.head?
      ≠ some reqWeatherAutoEx ∧
    chatWithToolEmulation callNativeToolEx 5 reqWeatherAutoEx
      ≠ (.ok resNativeToolEx, [reqWeatherAutoEx]) := by
  decide

/-- Claim C1 (amended): for a request with tools, `chatWithToolEmulation` performs
no probe call — whenever the decision request builds, the first request it
sends to the provider is that decision request, whose tool list is cleared
and which differs from the original request. -/
theorem chatWithToolEmulation_first_call_is_decision_request
    (call : Request → Except String Result) (now : Nat) (req dreq : Request)
    (h1 : req.tools ≠ []) (h2 : buildToolDecisionRequest req = .ok dreq) :
    (chatWithToolEmulation call now req).2.head? = some dreq ∧
    dreq.tools = [] ∧ dreq ≠ req := by
  have htools : dreq.tools = [] := by
    unfold buildToolDecisionRequest at h2
    cases hp : buildToolDecisionPrompt req with
    | error e => rw [hp] at h2; exact Except.noConfusion h2
    | ok p =>
      rw [hp] at h2
      injection h2 with h2
      rw [← h2]
  refine ⟨?_, htools, ?_⟩
  · unfold chatWithToolEmulation
    rw [if_neg h1]
    simp only [h2]
    cases hc : call dreq with
    | error e => rfl
    | ok resp =>
      dsimp only
      cases hp : parseToolDecision resp.text with
      | error e => rfl
      | ok pr =>
        obtain ⟨nm, args⟩ := pr
        dsimp only
        split
        · split
          · rfl
          · cases call (buildFinalRequest req) <;> rfl
        · split <;> rfl
  · intro he
    rw [he] at htools
    exact h1 htools

/-- Claim C1 (witness for the amended theorem), at the tool-call-echoing provider
and the one-tool request. -/
theorem chatWithToolEmulation_first_call_is_decision_request_witness :
    (chatWithToolEmulation callNativeToolEx 5 reqWeatherAutoEx).2.head?
        = some dReqWeatherAutoEx ∧
    dReqWeatherAutoEx.tools = [] ∧ dReqWeatherAutoEx ≠ reqWeatherAutoEx :=
  chatWithToolEmulation_first_call_is_decision_request callNativeToolEx 5
    reqWeatherAutoEx dReqWeatherAutoEx (by decide) (by rfl)

/-- Claim C10: both derived requests — the decision request and the tool-stripped
final request — have empty tools, no tool choice and the emulation toggle
switched off, so a provider wrapper keying emulation off either cannot
re-enter the emulation path. -/
theorem derived_requests_strip_tools_and_emulation :
    (∀ req dreq : Request, buildToolDecisionRequest req = .ok dreq →
      dreq.tools = [] ∧ dreq.toolChoice = none ∧
        dreq.options.toolsEmulation = false) ∧
    (∀ req : Request, (buildFinalRequest req).tools = [] ∧
      (buildFinalRequest req).toolChoice = none ∧
      (buildFinalRequest req).options.toolsEmulation = false) := by
  constructor
  · intro req dreq h
    unfold buildToolDecisionRequest at h
    cases hp : buildToolDecisionPrompt req with
    | error e => rw [hp] at h; exact Except.noConfusion h
    | ok p =>
      rw [hp] at h
      injection h with h
      rw [← h]
      exact ⟨rfl, rfl, rfl⟩
  · intro req
    exact ⟨rfl, rfl, rfl⟩

/-- Claim C6: once the decision call yields a non-null tool name, no further
provider call happens (the log stays at the decision request alone): when the
name is among the function tools of the request the result carries exactly one
synthesized `ToolCall` with that name and the decided arguments, empty text,
the model, usage and raw payload of the decision call, usage and raw payload, and the warning list
`["tool calls emulated"]`; otherwise the orchestrator returns an error. -/
theorem emulated_tool_branch_result
    (call : Request → Except String Result) (now : Nat) (req dreq : Request)
    (dresp : Result) (nm args : String)
    (h1 : req.tools ≠ []) (h2 : buildToolDecisionRequest req = .ok dreq)
    (h3 : call dreq = .ok dresp)
    (h4 : parseToolDecision dresp.text = .ok (nm, args)) (h5 : nm ≠ "") :
    chatWithToolEmulation call now req =
      (if toolExists req.tools nm then
         .ok { text := "", model := dresp.model,
               toolCalls := [mkEmulatedCall now nm args],
               messages := [{ role := RoleAssistant,
                              toolCalls := [mkEmulatedCall now nm args] }],
               usage := dresp.usage, raw := dresp.raw,
               warnings := ["tool calls emulated"] }
       else .error ("tool " ++ goQuote nm ++ " not found in request"),
       [dreq]) := by
  unfold chatWithToolEmulation
  rw [if_neg h1]
  simp only [h2, h3, h4]
  rw [if_neg h5]
  split <;> rfl

/-- Claim C6 (witness): the decision names `get_weather`, which exists in the
tool set of the request, so the synthesized call is the whole outcome. -/
theorem emulated_tool_branch_result_witness :
    chatWithToolEmulation callDecisionWeatherEx 11 reqWeatherAutoEx =
      (if toolExists reqWeatherAutoEx.tools "get_weather" then
         .ok { text := "", model := resDecisionWeatherEx.model,
               toolCalls := [mkEmulatedCall 11 "get_weather" "\x7b\"city\":\"Tokyo\"\x7d"],
               messages := [{ role := RoleAssistant,
                              toolCalls := [mkEmulatedCall 11 "get_weather"
                                              "\x7b\"city\":\"Tokyo\"\x7d"] }],
               usage := resDecisionWeatherEx.usage, raw := resDecisionWeatherEx.raw,
               warnings := ["tool calls emulated"] }
       else .error ("tool " ++ goQuote "get_weather" ++ " not found in request"),
       [dReqWeatherAutoEx]) :=
  emulated_tool_branch_result callDecisionWeatherEx 11 reqWeatherAutoEx
    dReqWeatherAutoEx resDecisionWeatherEx "get_weather" "\x7b\"city\":\"Tokyo\"\x7d"
    (by decide) (by rfl) (by rfl) (by decide) (by decide)

/-- Claim C9: cloning allocates fresh cells for `Messages`, `Tools` and the
`ToolChoice`, holding copies of the contents of the originals; afterwards any
writes through the references of the clone leave the contents of every original cell
unchanged. -/
theorem cloneChatRequestR_frame (st : Store) (req : RequestR)
    (hm : req.messagesRef < st.next) (ht : req.toolsRef < st.next)
    (hc : ∀ c, req.choiceRef = some c → c < st.next)
    (ms : List Message) (ts : List Tool) (oc : Option ToolChoice) :
    ((cloneChatRequestR st req).1.msgArr (cloneChatRequestR st req).2.messagesRef
        = st.msgArr req.messagesRef) ∧
    ((cloneChatRequestR st req).1.toolArr (cloneChatRequestR st req).2.toolsRef
        = st.toolArr req.toolsRef) ∧
    (let st2 := writeMsgArr (cloneChatRequestR st req).1
                  (cloneChatRequestR st req).2.messagesRef ms
     let st3 := writeToolArr st2 (cloneChatRequestR st req).2.toolsRef ts
     let st4 := match (cloneChatRequestR st req).2.choiceRef with
       | some c => writeChoiceCell st3 c oc
       | none => st3
     st4.msgArr req.messagesRef = st.msgArr req.messagesRef ∧
     st4.toolArr req.toolsRef = st.toolArr req.toolsRef ∧
     ∀ c, req.choiceRef = some c → st4.choiceCell c = st.choiceCell c) := by
  have h1 : req.messagesRef ≠ st.next := Nat.ne_of_lt hm
  have h2 : req.toolsRef ≠ st.next := Nat.ne_of_lt ht
  have h3 : req.toolsRef ≠ st.next + 1 := by omega
  have h4 : req.messagesRef ≠ st.next + 1 := by omega
  cases hcr : req.choiceRef with
  | none =>
    simp [cloneChatRequestR, writeMsgArr, writeToolArr, writeChoiceCell,
      hcr, h1, h2, h3, h4]
  | some c0 =>
    have hc0 : c0 < st.next := hc c0 hcr
    have h5 : c0 ≠ st.next + 2 := by omega
    simp [cloneChatRequestR, writeMsgArr, writeToolArr, writeChoiceCell,
      hcr, h1, h2, h3, h4, h5]

/-- Claim C9 (witness): a store with one message array, one tool array and one
choice cell; after cloning and overwriting all three of the cells of the clone,
the original cells still hold their contents. -/
theorem cloneChatRequestR_frame_witness :
    ((cloneChatRequestR storeEx reqRefEx).1.msgArr
        (cloneChatRequestR storeEx reqRefEx).2.messagesRef
        = storeEx.msgArr reqRefEx.messagesRef) ∧
    ((cloneChatRequestR storeEx reqRefEx).1.toolArr
        (cloneChatRequestR storeEx reqRefEx).2.toolsRef
        = storeEx.toolArr reqRefEx.toolsRef) ∧
    (let st2 := writeMsgArr (cloneChatRequestR storeEx reqRefEx).1
                  (cloneChatRequestR storeEx reqRefEx).2.messagesRef [sysMsgEx]
     let st3 := writeToolArr st2 (cloneChatRequestR storeEx reqRefEx).2.toolsRef []
     let st4 := match (cloneChatRequestR storeEx reqRefEx).2.choiceRef with
       | some c => writeChoiceCell st3 c (some { mode := "none" })
       | none => st3
     st4.msgArr reqRefEx.messagesRef = storeEx.msgArr reqRefEx.messagesRef ∧
     st4.toolArr reqRefEx.toolsRef = storeEx.toolArr reqRefEx.toolsRef ∧
     ∀ c, reqRefEx.choiceRef = some c → st4.choiceCell c = storeEx.choiceCell c) :=
  cloneChatRequestR_frame storeEx reqRefEx (by decide) (by decide)
    (fun c h => by simp [reqRefEx] at h; simp [storeEx]; omega)
    [sysMsgEx] [] (some { mode := "none" })

/-- Claim C10 (witness), at the one-tool request and its computed decision
request. -/
theorem derived_requests_strip_tools_and_emulation_witness :
    (dReqWeatherAutoEx.tools = [] ∧ dReqWeatherAutoEx.toolChoice = none ∧
      dReqWeatherAutoEx.options.toolsEmulation = false) ∧
    ((buildFinalRequest reqWeatherAutoEx).tools = [] ∧
      (buildFinalRequest reqWeatherAutoEx).toolChoice = none ∧
      (buildFinalRequest reqWeatherAutoEx).options.toolsEmulation = false) :=
  ⟨derived_requests_strip_tools_and_emulation.1 reqWeatherAutoEx dReqWeatherAutoEx rfl,
   derived_requests_strip_tools_and_emulation.2 reqWeatherAutoEx⟩

end Uniai
